import Mathlib

/-!
Verification of the Salish Sea nowcast manager and library
(`salishsea_tools/nowcast/nowcast_mgr.py`, `salishsea_tools/nowcast/lib.py`)
against its natural-language specification.

The Python modules are shallowly embedded: pure functions become Lean
functions, module-level mutable state (the manager checklist) becomes
explicit state passing, socket/subprocess/logging side effects become
explicit event traces, and Python runtime errors (`KeyError`,
`UnboundLocalError`) become `Except` error values.
-/

namespace Nowcast

/-! ### String helpers

Models of the Python `str.startswith` / `str.endswith` predicates, working
on the character list of a string. -/

/-- Model of Python `s.startswith(p)`. -/
def strStartsWith (s p : String) : Bool :=
  p.data.isPrefixOf s.data

/-- Model of Python `s.endswith(p)`. -/
def strEndsWith (s p : String) : Bool :=
  p.data.reverse.isPrefixOf s.data.reverse

/-- The single-quote character, used by the YAML scalar emitter. -/
def sq : Char := Char.ofNat 39

/-! ### YAML-safe values

`lib.serialize_message` YAML-dumps a dict and `lib.deserialize_message`
YAML-loads it back.  The payloads the nowcast code sends through this
channel are values serializable by safe YAML; we embed the scalar fragment
of that universe: `None`, booleans, integers and (newline-free) strings. -/

/-- A YAML-safe scalar value: the embedded universe of message payloads
(`None`, `bool`, `int`, `str`). -/
inductive Value : Type
  | null : Value
  | bool (b : Bool) : Value
  | int (n : Int) : Value
  | str (s : String) : Value
deriving DecidableEq, Repr

/-- Decimal digit to character, for the YAML emitter. -/
def digitChar (d : Nat) : Char :=
  match d with
  | 0 => '0' | 1 => '1' | 2 => '2' | 3 => '3' | 4 => '4'
  | 5 => '5' | 6 => '6' | 7 => '7' | 8 => '8' | _ => '9'

/-- Character back to decimal digit, for the YAML parser. -/
def charDigit (c : Char) : Option Nat :=
  if c = '0' then some 0 else if c = '1' then some 1
  else if c = '2' then some 2 else if c = '3' then some 3
  else if c = '4' then some 4 else if c = '5' then some 5
  else if c = '6' then some 6 else if c = '7' then some 7
  else if c = '8' then some 8 else if c = '9' then some 9
  else none

/-- Decimal representation of a natural number as characters
(most significant digit first). -/
def natChars (n : Nat) : List Char :=
  if n = 0 then ['0'] else ((Nat.digits 10 n).map digitChar).reverse

/-- One step of decimal accumulation while parsing digits. -/
def pnStep (acc : Option Nat) (c : Char) : Option Nat :=
  match acc, charDigit c with
  | some a, some d => some (10 * a + d)
  | _, _ => none

/-- Parse a nonempty all-digit character list back to a natural number. -/
def parseNat (cs : List Char) : Option Nat :=
  if cs = [] then none else cs.foldl pnStep (some 0)

/-- Decimal representation of an integer as characters. -/
def intChars (n : Int) : List Char :=
  if n < 0 then '-' :: natChars n.natAbs else natChars n.toNat

/-- Parse a (possibly `-`-signed) decimal character list to an integer. -/
def parseInt (cs : List Char) : Option Int :=
  match cs with
  | [] => none
  | c :: rest =>
    if c = '-' then (parseNat rest).map (fun k => -(Int.ofNat k))
    else (parseNat (c :: rest)).map Int.ofNat

/-- Escape a string body for YAML single-quoted style: each single quote
is doubled. -/
def sqEscape : List Char → List Char
  | [] => []
  | c :: cs => if c = sq then sq :: sq :: sqEscape cs else c :: sqEscape cs

/-- Parse the remainder of a YAML single-quoted scalar (the opening quote
already consumed): `sq sq` is an escaped quote, a lone closing quote must
end the token. -/
def sqBody : List Char → Option (List Char)
  | [] => none
  | c :: cs =>
    if c = sq then
      match cs with
      | [] => some []
      | c2 :: cs2 =>
        if c2 = sq then (sqBody cs2).map (fun r => sq :: r) else none
    else (sqBody cs).map (fun r => c :: r)

/-- Emit a YAML scalar for a value: `null`, `true`/`false`, a decimal
integer, or a single-quoted string. -/
def scalarChars (v : Value) : List Char :=
  match v with
  | .null => "null".data
  | .bool true => "true".data
  | .bool false => "false".data
  | .int n => intChars n
  | .str s => sq :: sqEscape s.data ++ [sq]

/-- Parse a YAML scalar token, inverting `scalarChars`; plain tokens that
are not `null`, booleans or integers load as strings. -/
def parseScalar (cs : List Char) : Option Value :=
  if cs = "null".data then some .null
  else if cs = "true".data then some (.bool true)
  else if cs = "false".data then some (.bool false)
  else
    match cs with
    | c :: rest =>
      if c = sq then (sqBody rest).map (fun b => .str (String.mk b))
      else
        match parseInt cs with
        | some n => some (.int n)
        | none => some (.str (String.mk cs))
    | [] => none

/-! ### Message wire format

`lib.serialize_message` builds the dict
`{'source': source, 'msg_type': msg_type, 'payload': payload}` and dumps
it with YAML (keys emitted in sorted order: `msg_type`, `payload`,
`source`, one `key: scalar` line each); `lib.deserialize_message` loads
the YAML text back into a dict, embedded as an association list. -/

/-- One `key: scalar` line of the YAML dump of a flat dict. -/
def keyLine (k : String) (v : Value) : List Char :=
  k.data ++ ':' :: ' ' :: scalarChars v

/-- Model of `lib.serialize_message(source, msg_type, payload=None)`:
YAML dump of the three-key message dict, keys in sorted order. -/
def serialize_message (source msg_type : String)
    (payload : Value := Value.null) : String :=
  String.mk
    (keyLine "msg_type" (.str msg_type) ++ '\n' ::
      (keyLine "payload" payload ++ '\n' ::
        (keyLine "source" (.str source) ++ ['\n'])))

/-- Split a character list at newline characters. -/
def splitNL : List Char → List (List Char)
  | [] => [[]]
  | c :: cs =>
    if c = '\n' then [] :: splitNL cs
    else
      match splitNL cs with
      | [] => [[c]]
      | l :: ls => (c :: l) :: ls

/-- Split a line at its first colon. -/
def splitColon : List Char → Option (List Char × List Char)
  | [] => none
  | c :: cs =>
    if c = ':' then some ([], cs)
    else (splitColon cs).map (fun p => (c :: p.1, p.2))

/-- Parse one `key: scalar` line of a YAML flat-dict dump. -/
def parseLine (l : List Char) : Option (String × Value) :=
  match splitColon l with
  | some (k, ' ' :: scal) => (parseScalar scal).map (fun v => (String.mk k, v))
  | _ => none

/-- Parse the lines of a YAML flat-dict dump, skipping empty lines. -/
def parseLines : List (List Char) → Option (List (String × Value))
  | [] => some []
  | l :: ls =>
    if l = [] then parseLines ls
    else
      match parseLine l, parseLines ls with
      | some kv, some rest => some (kv :: rest)
      | _, _ => none

/-- Model of `lib.deserialize_message(message)`: YAML-load the message
back into a dict (association list). -/
def deserialize_message (message : String) : Option (List (String × Value)) :=
  parseLines (splitNL message.data)

/-- A value whose embedded YAML scalar stays on one line: its string
content contains no newline. -/
def Value.noNL : Value → Prop
  | .str s => '\n' ∉ s.data
  | _ => True

instance : DecidablePred Value.noNL := fun v => by
  cases v <;> simp [Value.noNL] <;> infer_instance

/-! ### The nowcast manager (`nowcast_mgr.py`)

The manager's module level state is the `checklist` dict; its observable
side effects (socket traffic, subprocess launches, log-file rotation) are
embedded as an event trace.  Python runtime errors that `parse_message`
can raise become `Except` error values. -/

/-- `mgr_name = lib.get_module_name()`: the module file name of
`nowcast_mgr.py` with path and extension stripped. -/
def mgr_name : String := "nowcast_mgr"

/-- A received message after `lib.deserialize_message`: the `source`,
`msg_type` and `payload` items unpacked by `parse_message`. -/
structure Message : Type where
  source : String
  msg_type : String
  payload : Value
deriving DecidableEq, Repr

/-- The slice of the YAML configuration that `nowcast_mgr` reads:
the `msg_types` table (worker name to list of defined message types),
and the `python` / `config_file` values used to launch workers. -/
structure Config : Type where
  msg_types : List (String × List String)
  python : String
  config_file : String
deriving DecidableEq, Repr

/-- Python runtime errors `parse_message` can raise: looking up an
unknown worker in `config['msg_types']` raises `KeyError`; returning
`reply` when no branch assigned it raises `UnboundLocalError`. -/
inductive PyError : Type
  | keyError : PyError
  | unboundLocal : PyError
deriving DecidableEq, Repr

/-- The `next_step` function together with its `next_step_args`, as
selected by `parse_message`. -/
inductive NextStep : Type
  | do_nothing : NextStep
  | launch_worker (worker : String) : NextStep
  | update_checklist (worker key : String) (worker_checklist : Value) : NextStep
  | finish_automation : NextStep
deriving DecidableEq, Repr

/-- Log records emitted by `parse_message`. -/
inductive LogEvent : Type
  | errorUndefinedMsg (worker msg_type : String) : LogEvent
  | infoReceived (worker msg_type : String) : LogEvent
  | infoTheEnd : LogEvent
deriving DecidableEq, Repr

/-- Model of `nowcast_mgr.parse_message(config, message)` on an already
deserialized message: the sequence of `if` statements that set `reply`,
`next_step` and `next_step_args`.  The local `reply` starts unbound
(`none`); returning it unbound is the `UnboundLocalError` case. -/
def parse_message (config : Config) (msg : Message) :
    Except PyError (String × NextStep × List LogEvent) :=
  let worker := msg.source
  let msg_type := msg.msg_type
  let payload := msg.payload
  let reply_ack := serialize_message mgr_name "ack"
  match config.msg_types.lookup worker with
  | none => .error .keyError
  | some types =>
    let next_step : NextStep := .do_nothing
    let replyLog : Option String × List LogEvent :=
      if msg_type ∉ types then
        (some (serialize_message mgr_name "undefined msg"),
          [.errorUndefinedMsg worker msg_type])
      else (none, [.infoReceived worker msg_type])
    let reply := replyLog.1
    let logs := replyLog.2
    let st : Option String × NextStep :=
      if strStartsWith msg_type "success" = true then
        let st : Option String × NextStep :=
          if worker = "download_weather" ∧ strEndsWith msg_type "06" = true then
            (some reply_ack, next_step)
          else (reply, next_step)
        let st : Option String × NextStep :=
          if worker = "download_weather" ∧ strEndsWith msg_type "18" = true then
            (some reply_ack, .launch_worker "grib_to_netcdf")
          else st
        let st : Option String × NextStep :=
          if worker = "get_NeahBay_ssh" then
            (some reply_ack, .update_checklist worker "sshNeahBay" payload)
          else st
        let st : Option String × NextStep :=
          if worker = "make_runoff_file" then
            (some reply_ack, .update_checklist worker "rivers" payload)
          else st
        if worker = "grib_to_netcdf" then
          (some reply_ack, .update_checklist worker "weather forcing" payload)
        else st
      else (reply, next_step)
    let st : Option String × NextStep :=
      if strStartsWith msg_type "failure" = true then
        let st : Option String × NextStep :=
          if worker = "download_weather" ∧ strEndsWith msg_type "06" = true then
            (some reply_ack, st.2)
          else st
        let st : Option String × NextStep :=
          if worker = "download_weather" ∧ strEndsWith msg_type "18" = true then
            (some reply_ack, st.2)
          else st
        let st : Option String × NextStep :=
          if worker = "get_NeahBay_ssh" then (some reply_ack, st.2) else st
        let st : Option String × NextStep :=
          if worker = "make_runoff_file" then (some reply_ack, st.2) else st
        if worker = "grib_to_netcdf" then (some reply_ack, st.2) else st
      else st
    let stLogs : (Option String × NextStep) × List LogEvent :=
      if msg_type = "the end" then
        ((some reply_ack, .finish_automation), logs ++ [.infoTheEnd])
      else (st, logs)
    match stLogs.1.1 with
    | some reply => .ok (reply, stLogs.1.2, stLogs.2)
    | none => .error .unboundLocal

/-- The manager's module-level `checklist` dict, embedded as an
association list with distinct keys. -/
abbrev Checklist : Type := List (String × Value)

/-- Python `dict.update({key: value})` on an association list: replace in
place if the key is present, append otherwise. -/
def dictUpdate (d : Checklist) (key : String) (v : Value) : Checklist :=
  match d with
  | [] => [(key, v)]
  | (k, w) :: rest =>
    if k = key then (key, v) :: rest else (k, w) :: dictUpdate rest key v

/-- Model of `nowcast_mgr.update_checklist(worker, key, worker_checklist)`:
`checklist.update({key: worker_checklist})` on the module-level dict. -/
def update_checklist (worker key : String) (worker_checklist : Value)
    (checklist : Checklist) : Checklist :=
  let _ := worker
  dictUpdate checklist key worker_checklist

/-- Model of `nowcast_mgr.launch_worker(worker, config)`: the `cmd`
argument list passed to `lib.run_in_subprocess`. -/
def launch_worker (worker : String) (config : Config) : List String :=
  [config.python, "-m",
    "salishsea_tools.nowcast.workers." ++ worker,
    config.config_file]

/-- Model of `nowcast_mgr.finish_automation(config)` acting on the
module-level `checklist`.  The statement `checklist = {}` in the Python
function body has no `global checklist` declaration, so it binds a new
function-local name and the module-level dict is left unchanged. -/
def finish_automation (checklist : Checklist) : Checklist :=
  let localChecklist : Checklist := []
  let _ := localChecklist
  checklist

/-- What the spec and the function's own log line (`'checklist cleared'`)
say `finish_automation` does to the module-level checklist: empty it. -/
def finish_automation_spec (checklist : Checklist) : Checklist :=
  let _ := checklist
  ([] : Checklist)

/-- Observable side effects of one iteration of the manager's loop. -/
inductive Event : Type
  | recv (msg : Message) : Event
  | send (reply : String) : Event
  | launchSubprocess (cmd : List String) : Event
  | checklistUpdated (key worker : String) : Event
  | logRotated : Event
deriving DecidableEq, Repr

/-- Run the `next_step(*next_step_args)` call of the manager loop:
returns the new module-level checklist and the side-effect events. -/
def perform_step (config : Config) (checklist : Checklist) :
    NextStep → Checklist × List Event
  | .do_nothing => (checklist, [])
  | .launch_worker worker =>
    (checklist, [.launchSubprocess (launch_worker worker config)])
  | .update_checklist worker key payload =>
    (update_checklist worker key payload checklist,
      [.checklistUpdated key worker])
  | .finish_automation => (finish_automation checklist, [.logRotated])

/-- One iteration of the `while True` loop in `nowcast_mgr.main`:
receive a message, parse it, send the reply, then run the follow-up
step.  A Python error raised by `parse_message` aborts the iteration
before any reply is sent. -/
def loop_iteration (config : Config) (checklist : Checklist) (msg : Message) :
    Except PyError (Checklist × List Event) :=
  match parse_message config msg with
  | .error e => .error e
  | .ok (reply, next_step, _) =>
    let step := perform_step config checklist next_step
    .ok (step.1, .recv msg :: .send reply :: step.2)

/-! ### `lib.get_web_data`

The HTTP downloader with exponential-backoff retry.  The network is
embedded as a function `responses : Nat → Option Response` giving the
outcome of the k-th `requests.get` call (`none` is an HTTP error status,
so `raise_for_status` raises).  `time.sleep(delay)` calls are recorded in
a trace of wait intervals.  The Python loop need not terminate (e.g. with
`retry_backoff_factor = 1` and everlasting failures), so the embedding is
fuel-indexed, `diverge` marking fuel exhaustion. -/

/-- The fields of a `requests.Response` that `_handle_url_content`
reads. -/
structure Response : Type where
  text : String
  headers : List (String × String)
deriving DecidableEq, Repr

/-- What `get_web_data` returns: downloaded content text, or the response
headers dict. -/
inductive GWDValue : Type
  | text (s : String) : GWDValue
  | headers (h : List (String × String)) : GWDValue
deriving DecidableEq, Repr

/-- Outcome of a fuel-indexed run of `get_web_data`: a returned value, a
raised `WorkerError` (carrying the `retries` counter), or fuel exhaustion
(the Python loop still running). -/
inductive GWDOutcome : Type
  | ok (v : GWDValue) : GWDOutcome
  | workerError (retries : Nat) : GWDOutcome
  | diverge : GWDOutcome
deriving DecidableEq, Repr

/-- Model of `lib._handle_url_content(response, filepath)`: the content
text when `filepath` is `None`, the response headers dict otherwise. -/
def handle_url_content (response : Response) (filepath : Option String) :
    GWDValue :=
  match filepath with
  | none => .text response.text
  | some _ => .headers response.headers

/-- The `while delay <= retry_time_limit` retry loop of `get_web_data`:
sleep `delay` (recorded in the trace), issue the next request, return on
success, otherwise multiply `delay` by the backoff factor and repeat;
once `delay` exceeds the limit, give up with `WorkerError`. -/
def gwdLoop (responses : Nat → Option Response) (filepath : Option String)
    (retry_backoff_factor retry_time_limit : ℚ) :
    ℚ → Nat → Nat → Nat → GWDOutcome × List ℚ
  | _, _, _, 0 => (.diverge, [])
  | delay, retries, attempt, fuel + 1 =>
    if delay ≤ retry_time_limit then
      match responses attempt with
      | some r => (.ok (handle_url_content r filepath), [delay])
      | none =>
        let rest := gwdLoop responses filepath retry_backoff_factor
          retry_time_limit (delay * retry_backoff_factor) (retries + 1)
          (attempt + 1) fuel
        (rest.1, delay :: rest.2)
    else (.workerError retries, [])

/-- Model of `lib.get_web_data(url, logger, filepath, first_retry_delay,
retry_backoff_factor, retry_time_limit)`: first request, then the retry
loop.  Returns the outcome and the trace of slept wait intervals. -/
def get_web_data (responses : Nat → Option Response)
    (filepath : Option String := none)
    (first_retry_delay : ℚ := 2)
    (retry_backoff_factor : ℚ := 2)
    (retry_time_limit : ℚ := 60 * 60)
    (fuel : Nat := 0) : GWDOutcome × List ℚ :=
  match responses 0 with
  | some r => (.ok (handle_url_content r filepath), [])
  | none =>
    gwdLoop responses filepath retry_backoff_factor retry_time_limit
      first_retry_delay 0 1 fuel

/-! ### Derived predicates used in the statements -/

/-- The `(worker, msg_type)` pairs for which the dispatch cascade in
`parse_message` assigns `reply`: a `success`- or `failure`-prefixed type
from `download_weather` ending in `06` or `18`, any `success`- or
`failure`-prefixed type from `get_NeahBay_ssh`, `make_runoff_file` or
`grib_to_netcdf`, or the type `the end`. -/
def handledDispatch (worker msg_type : String) : Prop :=
  (strStartsWith msg_type "success" = true ∧
    ((worker = "download_weather" ∧
        (strEndsWith msg_type "06" = true ∨ strEndsWith msg_type "18" = true)) ∨
      worker = "get_NeahBay_ssh" ∨ worker = "make_runoff_file" ∨
      worker = "grib_to_netcdf")) ∨
  (strStartsWith msg_type "failure" = true ∧
    ((worker = "download_weather" ∧
        (strEndsWith msg_type "06" = true ∨ strEndsWith msg_type "18" = true)) ∨
      worker = "get_NeahBay_ssh" ∨ worker = "make_runoff_file" ∨
      worker = "grib_to_netcdf")) ∨
  msg_type = "the end"

instance (worker msg_type : String) :
    Decidable (handledDispatch worker msg_type) := by
  unfold handledDispatch; infer_instance

/-- Is this event the receipt of a message? -/
def Event.isRecv : Event → Bool
  | .recv _ => true
  | _ => false

/-- Is this event the sending of a reply? -/
def Event.isSend : Event → Bool
  | .send _ => true
  | _ => false

/-- Is this event a follow-up action (subprocess launch, checklist
update, or log rotation)? -/
def Event.isFollowUp : Event → Bool
  | .launchSubprocess _ => true
  | .checklistUpdated _ _ => true
  | .logRotated => true
  | _ => false

/-! ### Lemmas: decimal digits -/

theorem charDigit_digitChar : ∀ d < 10, charDigit (digitChar d) = some d := by
  decide

theorem charDigit_digitChar_isSome (d : Nat) :
    (charDigit (digitChar d)).isSome = true := by
  unfold digitChar
  split <;> decide

theorem pn_fold (ds : List Nat) (h : ∀ d ∈ ds, d < 10) :
    List.foldr (fun c acc => pnStep acc c) (some 0) (ds.map digitChar) =
      some (Nat.ofDigits 10 ds) := by
  induction ds with
  | nil => simp [Nat.ofDigits_nil]
  | cons d ds ih =>
    have hd : d < 10 := h d (List.mem_cons_self d ds)
    have hds : ∀ x ∈ ds, x < 10 := fun x hx => h x (List.mem_cons_of_mem d hx)
    simp only [List.map_cons, List.foldr_cons]
    rw [ih hds]
    simp only [pnStep, charDigit_digitChar d hd, Nat.ofDigits_cons,
      Option.some.injEq]
    omega

theorem natChars_ne_nil (n : Nat) : natChars n ≠ [] := by
  unfold natChars
  split
  · simp
  · next h =>
    simp only [ne_eq, List.reverse_eq_nil_iff, List.map_eq_nil_iff]
    exact Nat.digits_ne_nil_iff_ne_zero.mpr h

theorem parseNat_natChars (n : Nat) : parseNat (natChars n) = some n := by
  by_cases h : n = 0
  · subst h; decide
  · unfold parseNat
    rw [if_neg (natChars_ne_nil n)]
    unfold natChars
    rw [if_neg h, List.foldl_reverse]
    have hlt : ∀ d ∈ Nat.digits 10 n, d < 10 := fun d hd =>
      Nat.digits_lt_base (by norm_num) hd
    calc List.foldr (fun x y => pnStep y x) (some 0)
          ((Nat.digits 10 n).map digitChar)
        = some (Nat.ofDigits 10 (Nat.digits 10 n)) := pn_fold _ hlt
      _ = some n := by rw [Nat.ofDigits_digits]

theorem natChars_all_digits (n : Nat) :
    ∀ c ∈ natChars n, (charDigit c).isSome = true := by
  intro c hc
  unfold natChars at hc
  split at hc
  · simp only [List.mem_singleton] at hc
    subst hc; decide
  · rw [List.mem_reverse, List.mem_map] at hc
    obtain ⟨d, _, rfl⟩ := hc
    exact charDigit_digitChar_isSome d

theorem intChars_all (n : Int) :
    ∀ c ∈ intChars n, c = '-' ∨ (charDigit c).isSome = true := by
  intro c hc
  unfold intChars at hc
  split at hc
  · rw [List.mem_cons] at hc
    rcases hc with h | h
    · exact Or.inl h
    · exact Or.inr (natChars_all_digits _ c h)
  · exact Or.inr (natChars_all_digits _ c hc)

theorem parseInt_intChars (n : Int) : parseInt (intChars n) = some n := by
  by_cases h : n < 0
  · unfold intChars
    rw [if_pos h]
    simp [parseInt, parseNat_natChars]
    rw [abs_of_neg h]
    ring
  · unfold intChars
    rw [if_neg h]
    obtain ⟨c, cs, hcs⟩ := List.exists_cons_of_ne_nil (natChars_ne_nil n.toNat)
    have hdig : (charDigit c).isSome = true :=
      natChars_all_digits n.toNat c (by rw [hcs]; exact List.mem_cons_self c cs)
    have hc : c ≠ '-' := by
      intro hcc
      subst hcc
      simp [charDigit] at hdig
    rw [hcs]
    have hstep : parseInt (c :: cs) = (parseNat (c :: cs)).map Int.ofNat := by
      simp [parseInt, hc]
    rw [hstep, ← hcs, parseNat_natChars]
    simp only [Option.map_some', Option.some.injEq, Int.ofNat_eq_natCast]
    omega

/-! ### Lemmas: single-quoted strings and scalar round trip -/

theorem sqBody_sqEscape (l : List Char) :
    sqBody (sqEscape l ++ [sq]) = some l := by
  induction l with
  | nil => simp [sqEscape, sqBody]
  | cons c cs ih =>
    by_cases hc : c = sq
    · subst hc
      simp [sqEscape, sqBody, ih]
    · rw [show sqEscape (c :: cs) = c :: sqEscape cs from by simp [sqEscape, hc],
        List.cons_append, sqBody.eq_def]
      simp only [if_neg hc]
      rw [ih]
      rfl

theorem sqEscape_subset {c : Char} {l : List Char} (h : c ∈ sqEscape l) :
    c ∈ l ∨ c = sq := by
  induction l with
  | nil => simp [sqEscape] at h
  | cons d ds ih =>
    by_cases hd : d = sq
    · subst hd
      rw [show sqEscape (sq :: ds) = sq :: sq :: sqEscape ds from by
        simp [sqEscape], List.mem_cons, List.mem_cons] at h
      rcases h with rfl | rfl | h
      · exact Or.inr rfl
      · exact Or.inr rfl
      · rcases ih h with h' | h'
        · exact Or.inl (List.mem_cons_of_mem _ h')
        · exact Or.inr h'
    · rw [show sqEscape (d :: ds) = d :: sqEscape ds from by
        simp [sqEscape, hd], List.mem_cons] at h
      rcases h with rfl | h
      · exact Or.inl (List.mem_cons_self _ _)
      · rcases ih h with h' | h'
        · exact Or.inl (List.mem_cons_of_mem _ h')
        · exact Or.inr h'

theorem newline_not_mem_scalarChars {v : Value} (h : v.noNL) :
    '\n' ∉ scalarChars v := by
  intro hmem
  cases v with
  | null => revert hmem; decide
  | bool b => cases b <;> revert hmem <;> decide
  | int n =>
    rcases intChars_all n '\n' hmem with h' | h'
    · exact absurd h' (by decide)
    · exact absurd h' (by decide)
  | str s =>
    rw [show scalarChars (.str s) = sq :: (sqEscape s.data ++ [sq]) from by
      simp [scalarChars], List.mem_cons] at hmem
    rcases hmem with h1 | h1
    · exact absurd h1 (by decide)
    rcases List.mem_append.mp h1 with h2 | h2
    · rcases sqEscape_subset h2 with h3 | h3
      · exact h h3
      · exact absurd h3 (by decide)
    · exact absurd (List.mem_singleton.mp h2) (by decide)

theorem scalarChars_str_head (s : String) :
    scalarChars (.str s) = sq :: (sqEscape s.data ++ [sq]) := by
  simp [scalarChars]

theorem intChars_ne_word (n : Int) (w : List Char) (c : Char) (hc : c ∈ w)
    (hdash : c ≠ '-') (hdig : charDigit c = none) : intChars n ≠ w := by
  intro he
  have : c ∈ intChars n := he ▸ hc
  rcases intChars_all n c this with h' | h'
  · exact hdash h'
  · rw [hdig] at h'
    exact Bool.noConfusion h'

theorem parseScalar_scalarChars (v : Value) (h : v.noNL) :
    parseScalar (scalarChars v) = some v := by
  cases v with
  | null => decide
  | bool b => cases b <;> decide
  | int n =>
    have h1 : intChars n ≠ "null".data :=
      intChars_ne_word n _ 'n' (by decide) (by decide) (by decide)
    have h2 : intChars n ≠ "true".data :=
      intChars_ne_word n _ 't' (by decide) (by decide) (by decide)
    have h3 : intChars n ≠ "false".data :=
      intChars_ne_word n _ 'f' (by decide) (by decide) (by decide)
    have hne : intChars n ≠ [] := by
      unfold intChars
      split
      · simp
      · exact natChars_ne_nil _
    obtain ⟨c, cs, hcs⟩ := List.exists_cons_of_ne_nil hne
    have hsq : c ≠ sq := by
      have : c ∈ intChars n := hcs ▸ List.mem_cons_self c cs
      rcases intChars_all n c this with h' | h'
      · subst h'; decide
      · intro he
        subst he
        revert h'
        decide
    rw [show scalarChars (.int n) = intChars n from rfl]
    unfold parseScalar
    rw [if_neg (by rw [hcs] at h1 ⊢; exact h1),
      if_neg (by rw [hcs] at h2 ⊢; exact h2),
      if_neg (by rw [hcs] at h3 ⊢; exact h3)]
    rw [hcs]
    simp only [if_neg hsq, ← hcs, parseInt_intChars]
  | str s =>
    have hhead : ∀ w : List Char, w ≠ [] → w.head? ≠ some sq →
        sq :: (sqEscape s.data ++ [sq]) ≠ w := by
      intro w hw hh he
      rw [← he] at hh
      exact hh rfl
    rw [scalarChars_str_head]
    unfold parseScalar
    rw [if_neg (hhead _ (by decide) (by decide)),
      if_neg (hhead _ (by decide) (by decide)),
      if_neg (hhead _ (by decide) (by decide))]
    simp [sqBody_sqEscape]

/-! ### Lemmas: line structure of the serialized message -/

theorem splitColon_append (k rest : List Char) (h : ':' ∉ k) :
    splitColon (k ++ ':' :: rest) = some (k, rest) := by
  induction k with
  | nil => simp [splitColon]
  | cons c cs ih =>
    have hc : c ≠ ':' := fun hcc => h (hcc ▸ List.mem_cons_self c cs)
    have hcs : ':' ∉ cs := fun hm => h (List.mem_cons_of_mem c hm)
    simp only [List.cons_append, splitColon, if_neg hc, List.append_eq,
      ih hcs, Option.map_some']

theorem parseLine_keyLine (k : String) (v : Value) (hk : ':' ∉ k.data)
    (hv : v.noNL) : parseLine (keyLine k v) = some (k, v) := by
  unfold parseLine keyLine
  rw [splitColon_append _ _ hk]
  simp only [parseScalar_scalarChars v hv, Option.map_some']

theorem keyLine_no_newline (k : String) (v : Value) (hk : '\n' ∉ k.data)
    (hv : v.noNL) : '\n' ∉ keyLine k v := by
  intro hmem
  unfold keyLine at hmem
  rcases List.mem_append.mp hmem with h1 | h1
  · exact hk h1
  rcases List.mem_cons.mp h1 with h2 | h2
  · exact absurd h2 (by decide)
  rcases List.mem_cons.mp h2 with h3 | h3
  · exact absurd h3 (by decide)
  · exact newline_not_mem_scalarChars hv h3

theorem keyLine_ne_nil (k : String) (v : Value) : keyLine k v ≠ [] := by
  unfold keyLine
  cases h : k.data <;> simp

theorem splitNL_append (xs rest : List Char) (h : '\n' ∉ xs) :
    splitNL (xs ++ '\n' :: rest) = xs :: splitNL rest := by
  induction xs with
  | nil => simp [splitNL]
  | cons c cs ih =>
    have hc : c ≠ '\n' := fun hcc => h (hcc ▸ List.mem_cons_self c cs)
    have hcs : '\n' ∉ cs := fun hm => h (List.mem_cons_of_mem c hm)
    rw [List.cons_append, splitNL.eq_def]
    simp only [if_neg hc]
    rw [ih hcs]

theorem parseLines_cons_ne (l : List Char) (ls : List (List Char))
    (hne : l ≠ []) :
    parseLines (l :: ls) =
      match parseLine l, parseLines ls with
      | some kv, some rest => some (kv :: rest)
      | _, _ => none := by
  rw [parseLines.eq_def]
  simp only [if_neg hne]

/-- Round trip of the message wire format at the line level. -/
theorem deserialize_serialize (source msg_type : String) (payload : Value)
    (hs : '\n' ∉ source.data) (ht : '\n' ∉ msg_type.data)
    (hp : payload.noNL) :
    deserialize_message (serialize_message source msg_type payload) =
      some [("msg_type", .str msg_type), ("payload", payload),
        ("source", .str source)] := by
  unfold deserialize_message serialize_message
  rw [show (String.mk
      (keyLine "msg_type" (.str msg_type) ++ '\n' ::
        (keyLine "payload" payload ++ '\n' ::
          (keyLine "source" (.str source) ++ ['\n'])))).data =
      keyLine "msg_type" (.str msg_type) ++ '\n' ::
        (keyLine "payload" payload ++ '\n' ::
          (keyLine "source" (.str source) ++ '\n' :: [])) from rfl]
  rw [splitNL_append _ _
      (keyLine_no_newline "msg_type" (.str msg_type) (by decide) ht),
    splitNL_append _ _
      (keyLine_no_newline "payload" payload (by decide) hp),
    splitNL_append _ _
      (keyLine_no_newline "source" (.str source) (by decide) hs)]
  rw [parseLines_cons_ne _ _ (keyLine_ne_nil _ _),
    parseLine_keyLine "msg_type" (.str msg_type) (by decide) ht]
  rw [parseLines_cons_ne _ _ (keyLine_ne_nil _ _),
    parseLine_keyLine "payload" payload (by decide) hp]
  rw [parseLines_cons_ne _ _ (keyLine_ne_nil _ _),
    parseLine_keyLine "source" (.str source) (by decide) hs]
  rfl

/-! ### Lemmas: prefix/suffix facts about message types -/

theorem startsWith_conflict {t : String} {c d : Char} {p q : List Char}
    (h1 : strStartsWith t (String.mk (c :: p)) = true)
    (h2 : strStartsWith t (String.mk (d :: q)) = true) (hcd : c ≠ d) :
    False := by
  unfold strStartsWith at h1 h2
  rw [List.isPrefixOf_iff_prefix] at h1 h2
  obtain ⟨t1, ht1⟩ := h1
  obtain ⟨t2, ht2⟩ := h2
  rw [← ht1] at ht2
  simp at ht2
  exact hcd ht2.1.symm

theorem endsWith_conflict {t : String} {c d : Char} {p q : List Char}
    (h1 : strEndsWith t (String.mk (p ++ [c])) = true)
    (h2 : strEndsWith t (String.mk (q ++ [d])) = true) (hcd : c ≠ d) :
    False := by
  unfold strEndsWith at h1 h2
  rw [List.isPrefixOf_iff_prefix] at h1 h2
  rw [show (String.mk (p ++ [c])).data = p ++ [c] from rfl,
    List.reverse_append] at h1
  rw [show (String.mk (q ++ [d])).data = q ++ [d] from rfl,
    List.reverse_append] at h2
  obtain ⟨t1, ht1⟩ := h1
  obtain ⟨t2, ht2⟩ := h2
  rw [← ht1] at ht2
  simp at ht2
  exact hcd ht2.1.symm

theorem ends18_not_ends06 {t : String} (h : strEndsWith t "18" = true) :
    ¬ strEndsWith t "06" = true := fun h6 =>
  endsWith_conflict (p := ['1']) (q := ['0']) h h6 (by decide)

theorem ends06_not_ends18 {t : String} (h : strEndsWith t "06" = true) :
    ¬ strEndsWith t "18" = true := fun h8 =>
  endsWith_conflict (p := ['0']) (q := ['1']) h h8 (by decide)

theorem success_not_failure {t : String}
    (h : strStartsWith t "success" = true) :
    ¬ strStartsWith t "failure" = true := fun hf =>
  startsWith_conflict (c := 's') (d := 'f') h hf (by decide)

theorem failure_not_success {t : String}
    (h : strStartsWith t "failure" = true) :
    ¬ strStartsWith t "success" = true := fun hs =>
  startsWith_conflict (c := 'f') (d := 's') h hs (by decide)

theorem success_ne_the_end {t : String}
    (h : strStartsWith t "success" = true) : t ≠ "the end" := by
  intro he
  subst he
  exact absurd h (by decide)

theorem failure_ne_the_end {t : String}
    (h : strStartsWith t "failure" = true) : t ≠ "the end" := by
  intro he
  subst he
  exact absurd h (by decide)

/-! ### Lemmas: `parse_message` case analysis -/

/-- The log records of `parse_message` before any `the end` handling:
an error record when the type is undefined for the worker, an info
record otherwise. -/
def baseLogs (types : List String) (worker msg_type : String) :
    List LogEvent :=
  if msg_type ∈ types then [.infoReceived worker msg_type]
  else [.errorUndefinedMsg worker msg_type]

theorem pm_success_dw18 (config : Config) (types : List String)
    (t : String) (p : Value)
    (hlk : config.msg_types.lookup "download_weather" = some types)
    (hsucc : strStartsWith t "success" = true)
    (h18 : strEndsWith t "18" = true) :
    parse_message config ⟨"download_weather", t, p⟩ =
      .ok (serialize_message mgr_name "ack", .launch_worker "grib_to_netcdf",
        baseLogs types "download_weather" t) := by
  have h06 := ends18_not_ends06 h18
  have hte := success_ne_the_end hsucc
  by_cases hdef : t ∈ types <;>
    simp [parse_message, baseLogs, hlk, hsucc, h18, h06, hte, hdef]

theorem pm_success_dw06 (config : Config) (types : List String)
    (t : String) (p : Value)
    (hlk : config.msg_types.lookup "download_weather" = some types)
    (hsucc : strStartsWith t "success" = true)
    (h06 : strEndsWith t "06" = true) :
    parse_message config ⟨"download_weather", t, p⟩ =
      .ok (serialize_message mgr_name "ack", .do_nothing,
        baseLogs types "download_weather" t) := by
  have h18 := ends06_not_ends18 h06
  have hte := success_ne_the_end hsucc
  by_cases hdef : t ∈ types <;>
    simp [parse_message, baseLogs, hlk, hsucc, h18, h06, hte, hdef]

theorem pm_success_checklist (config : Config) (types : List String)
    (worker key t : String) (p : Value)
    (hw : (worker = "get_NeahBay_ssh" ∧ key = "sshNeahBay") ∨
      (worker = "make_runoff_file" ∧ key = "rivers") ∨
      (worker = "grib_to_netcdf" ∧ key = "weather forcing"))
    (hlk : config.msg_types.lookup worker = some types)
    (hsucc : strStartsWith t "success" = true) :
    parse_message config ⟨worker, t, p⟩ =
      .ok (serialize_message mgr_name "ack",
        .update_checklist worker key p, baseLogs types worker t) := by
  have hte := success_ne_the_end hsucc
  rcases hw with ⟨hw, hk⟩ | ⟨hw, hk⟩ | ⟨hw, hk⟩ <;> subst hw <;> subst hk <;>
    by_cases hdef : t ∈ types <;>
    simp [parse_message, baseLogs, hlk, hsucc, hte, hdef]

theorem pm_failure (config : Config) (types : List String)
    (worker t : String) (p : Value)
    (hw : (worker = "download_weather" ∧
        (strEndsWith t "06" = true ∨ strEndsWith t "18" = true)) ∨
      worker = "get_NeahBay_ssh" ∨ worker = "make_runoff_file" ∨
      worker = "grib_to_netcdf")
    (hlk : config.msg_types.lookup worker = some types)
    (hfail : strStartsWith t "failure" = true) :
    parse_message config ⟨worker, t, p⟩ =
      .ok (serialize_message mgr_name "ack", .do_nothing,
        baseLogs types worker t) := by
  have hsucc := failure_not_success hfail
  have hte := failure_ne_the_end hfail
  rcases hw with ⟨hw, h06 | h18⟩ | hw | hw | hw <;> subst hw
  · have h18 := ends06_not_ends18 h06
    by_cases hdef : t ∈ types <;>
      simp [parse_message, baseLogs, hlk, hfail, hsucc, h06, h18, hte, hdef]
  · have h06 := ends18_not_ends06 h18
    by_cases hdef : t ∈ types <;>
      simp [parse_message, baseLogs, hlk, hfail, hsucc, h06, h18, hte, hdef]
  all_goals
    by_cases hdef : t ∈ types <;>
      simp [parse_message, baseLogs, hlk, hfail, hsucc, hte, hdef]

theorem pm_the_end (config : Config) (types : List String)
    (worker : String) (p : Value)
    (hlk : config.msg_types.lookup worker = some types) :
    parse_message config ⟨worker, "the end", p⟩ =
      .ok (serialize_message mgr_name "ack", .finish_automation,
        baseLogs types worker "the end" ++ [.infoTheEnd]) := by
  have hsucc : strStartsWith "the end" "success" = false := by decide
  have hfail : strStartsWith "the end" "failure" = false := by decide
  by_cases hdef : "the end" ∈ types <;>
    simp [parse_message, baseLogs, hlk, hsucc, hfail, hdef]

theorem pm_defined_unhandled (config : Config) (types : List String)
    (worker t : String) (p : Value)
    (hlk : config.msg_types.lookup worker = some types)
    (hdef : t ∈ types) (hnh : ¬ handledDispatch worker t) :
    parse_message config ⟨worker, t, p⟩ = .error .unboundLocal := by
  unfold handledDispatch at hnh
  push_neg at hnh
  obtain ⟨hns, hnf, hnte⟩ := hnh
  by_cases hsucc : strStartsWith t "success" = true
  · have hw := hns hsucc
    push_neg at hw
    obtain ⟨hdw, hneah, hrun, hgrib⟩ := hw
    have hfail := success_not_failure hsucc
    by_cases hdw' : worker = "download_weather"
    · subst hdw'
      have h06 : ¬ strEndsWith t "06" = true := fun h =>
        (hdw rfl).1 h
      have h18 : ¬ strEndsWith t "18" = true := fun h =>
        (hdw rfl).2 h
      simp [parse_message, hlk, hsucc, hfail, hnte, hdef, h06, h18]
    · simp [parse_message, hlk, hsucc, hfail, hnte, hdef, hdw', hneah,
        hrun, hgrib]
  · by_cases hfail : strStartsWith t "failure" = true
    · have hw := hnf hfail
      push_neg at hw
      obtain ⟨hdw, hneah, hrun, hgrib⟩ := hw
      by_cases hdw' : worker = "download_weather"
      · subst hdw'
        have h06 : ¬ strEndsWith t "06" = true := fun h => (hdw rfl).1 h
        have h18 : ¬ strEndsWith t "18" = true := fun h => (hdw rfl).2 h
        simp [parse_message, hlk, hsucc, hfail, hnte, hdef, h06, h18]
      · simp [parse_message, hlk, hsucc, hfail, hnte, hdef, hdw', hneah,
          hrun, hgrib]
    · simp [parse_message, hlk, hsucc, hfail, hnte, hdef]

theorem pm_undefined_unhandled (config : Config) (types : List String)
    (worker t : String) (p : Value)
    (hlk : config.msg_types.lookup worker = some types)
    (hdef : t ∉ types) (hnh : ¬ handledDispatch worker t) :
    parse_message config ⟨worker, t, p⟩ =
      .ok (serialize_message mgr_name "undefined msg", .do_nothing,
        [.errorUndefinedMsg worker t]) := by
  unfold handledDispatch at hnh
  push_neg at hnh
  obtain ⟨hns, hnf, hnte⟩ := hnh
  by_cases hsucc : strStartsWith t "success" = true
  · have hw := hns hsucc
    push_neg at hw
    obtain ⟨hdw, hneah, hrun, hgrib⟩ := hw
    have hfail := success_not_failure hsucc
    by_cases hdw' : worker = "download_weather"
    · subst hdw'
      have h06 : ¬ strEndsWith t "06" = true := fun h => (hdw rfl).1 h
      have h18 : ¬ strEndsWith t "18" = true := fun h => (hdw rfl).2 h
      simp [parse_message, hlk, hsucc, hfail, hnte, hdef, h06, h18]
    · simp [parse_message, hlk, hsucc, hfail, hnte, hdef, hdw', hneah,
        hrun, hgrib]
  · by_cases hfail : strStartsWith t "failure" = true
    · have hw := hnf hfail
      push_neg at hw
      obtain ⟨hdw, hneah, hrun, hgrib⟩ := hw
      by_cases hdw' : worker = "download_weather"
      · subst hdw'
        have h06 : ¬ strEndsWith t "06" = true := fun h => (hdw rfl).1 h
        have h18 : ¬ strEndsWith t "18" = true := fun h => (hdw rfl).2 h
        simp [parse_message, hlk, hsucc, hfail, hnte, hdef, h06, h18]
      · simp [parse_message, hlk, hsucc, hfail, hnte, hdef, hdw', hneah,
          hrun, hgrib]
    · simp [parse_message, hlk, hsucc, hfail, hnte, hdef]

/-! ### Lemmas: the checklist dict -/

theorem dictUpdate_lookup_self (d : Checklist) (key : String) (v : Value) :
    (dictUpdate d key v).lookup key = some v := by
  induction d with
  | nil => simp [dictUpdate, List.lookup]
  | cons kv rest ih =>
    obtain ⟨k, w⟩ := kv
    by_cases hk : k = key
    · subst hk
      simp [dictUpdate, List.lookup]
    · simp only [dictUpdate, if_neg hk, List.lookup]
      rw [show (key == k) = false from by
        simp [beq_eq_false_iff_ne]; exact fun h => hk h.symm]
      exact ih

theorem dictUpdate_lookup_other (d : Checklist) (key : String) (v : Value)
    (k' : String) (h : k' ≠ key) :
    (dictUpdate d key v).lookup k' = d.lookup k' := by
  induction d with
  | nil =>
    simp only [dictUpdate, List.lookup]
    rw [show (k' == key) = false from by simp [beq_eq_false_iff_ne, h]]
  | cons kv rest ih =>
    obtain ⟨k, w⟩ := kv
    by_cases hk : k = key
    · subst hk
      simp only [dictUpdate, if_pos rfl, List.lookup]
      rw [show (k' == k) = false from by simp [beq_eq_false_iff_ne, h]]
    · simp only [dictUpdate, if_neg hk, List.lookup]
      by_cases hk' : k' = k
      · subst hk'
        simp
      · rw [show (k' == k) = false from by simp [beq_eq_false_iff_ne, hk']]
        exact ih

/-! ### Lemmas: the `get_web_data` retry loop -/

theorem gwdLoop_succ_stop (responses : Nat → Option Response)
    (filepath : Option String) (backoff limit : ℚ) (delay : ℚ)
    (retries attempt fuel : Nat) (hle : ¬ delay ≤ limit) :
    gwdLoop responses filepath backoff limit delay retries attempt
      (fuel + 1) = (.workerError retries, []) := by
  rw [gwdLoop, if_neg hle]

theorem gwdLoop_succ_ok (responses : Nat → Option Response)
    (filepath : Option String) (backoff limit : ℚ) (delay : ℚ)
    (retries attempt fuel : Nat) (r : Response) (hle : delay ≤ limit)
    (hr : responses attempt = some r) :
    gwdLoop responses filepath backoff limit delay retries attempt
      (fuel + 1) = (.ok (handle_url_content r filepath), [delay]) := by
  rw [gwdLoop, if_pos hle, hr]

theorem gwdLoop_succ_fail (responses : Nat → Option Response)
    (filepath : Option String) (backoff limit : ℚ) (delay : ℚ)
    (retries attempt fuel : Nat) (hle : delay ≤ limit)
    (hr : responses attempt = none) :
    gwdLoop responses filepath backoff limit delay retries attempt
      (fuel + 1) =
      ((gwdLoop responses filepath backoff limit (delay * backoff)
          (retries + 1) (attempt + 1) fuel).1,
        delay :: (gwdLoop responses filepath backoff limit (delay * backoff)
          (retries + 1) (attempt + 1) fuel).2) := by
  rw [gwdLoop, if_pos hle, hr]

theorem gwdLoop_trace_le (responses : Nat → Option Response)
    (filepath : Option String) (backoff limit : ℚ) :
    ∀ (fuel : Nat) (delay : ℚ) (retries attempt : Nat),
      ∀ d ∈ (gwdLoop responses filepath backoff limit delay retries
        attempt fuel).2, d ≤ limit := by
  intro fuel
  induction fuel with
  | zero => intro delay retries attempt d hd; simp [gwdLoop] at hd
  | succ fuel ih =>
    intro delay retries attempt d hd
    by_cases hle : delay ≤ limit
    · cases hr : responses attempt with
      | some r =>
        rw [gwdLoop_succ_ok responses filepath backoff limit delay retries
          attempt fuel r hle hr] at hd
        simp only [List.mem_singleton] at hd
        exact hd ▸ hle
      | none =>
        rw [gwdLoop_succ_fail responses filepath backoff limit delay retries
          attempt fuel hle hr] at hd
        simp only [List.mem_cons] at hd
        rcases hd with rfl | hd
        · exact hle
        · exact ih _ _ _ d hd
    · rw [gwdLoop_succ_stop responses filepath backoff limit delay retries
        attempt fuel hle] at hd
      simp at hd

theorem gwdLoop_trace_geom (responses : Nat → Option Response)
    (filepath : Option String) (backoff limit : ℚ)
    (hfail : ∀ k, responses k = none) :
    ∀ (fuel : Nat) (delay : ℚ) (retries attempt : Nat) (i : Nat),
      i < (gwdLoop responses filepath backoff limit delay retries
        attempt fuel).2.length →
      (gwdLoop responses filepath backoff limit delay retries
        attempt fuel).2.get? i = some (delay * backoff ^ i) := by
  intro fuel
  induction fuel with
  | zero => intro delay retries attempt i h; simp [gwdLoop] at h
  | succ fuel ih =>
    intro delay retries attempt i h
    by_cases hle : delay ≤ limit
    · rw [gwdLoop_succ_fail responses filepath backoff limit delay retries
        attempt fuel hle (hfail attempt)] at h ⊢
      cases i with
      | zero => simp
      | succ i =>
        simp only [List.length_cons, Nat.succ_lt_succ_iff] at h
        rw [List.get?_cons_succ, ih _ _ _ i h]
        rw [show delay * backoff * backoff ^ i = delay * backoff ^ (i + 1)
          from by ring]
    · rw [gwdLoop_succ_stop responses filepath backoff limit delay retries
        attempt fuel hle] at h
      simp at h

theorem gwdLoop_ne_diverge (responses : Nat → Option Response)
    (filepath : Option String) (backoff limit : ℚ) (hb : 1 < backoff) :
    ∀ (n : Nat) (delay : ℚ) (retries attempt : Nat), 0 < delay →
      limit < delay * backoff ^ n →
      (gwdLoop responses filepath backoff limit delay retries attempt
        (n + 1)).1 ≠ .diverge := by
  intro n
  induction n with
  | zero =>
    intro delay retries attempt hd hlim
    simp only [pow_zero, mul_one] at hlim
    rw [gwdLoop_succ_stop responses filepath backoff limit delay retries
      attempt 0 (not_le.mpr hlim)]
    exact fun h => GWDOutcome.noConfusion h
  | succ n ih =>
    intro delay retries attempt hd hlim
    by_cases hle : delay ≤ limit
    · cases hr : responses attempt with
      | some r =>
        rw [gwdLoop_succ_ok responses filepath backoff limit delay retries
          attempt (n + 1) r hle hr]
        exact fun h => GWDOutcome.noConfusion h
      | none =>
        rw [gwdLoop_succ_fail responses filepath backoff limit delay retries
          attempt (n + 1) hle hr]
        have hd2 : 0 < delay * backoff := mul_pos hd (lt_trans one_pos hb)
        have hlim2 : limit < delay * backoff * backoff ^ n := by
          calc limit < delay * backoff ^ (n + 1) := hlim
            _ = delay * backoff * backoff ^ n := by ring
        exact ih (delay * backoff) (retries + 1) (attempt + 1) hd2 hlim2
    · rw [gwdLoop_succ_stop responses filepath backoff limit delay retries
        attempt (n + 1) hle]
      exact fun h => GWDOutcome.noConfusion h

theorem gwdLoop_ok_first_success (responses : Nat → Option Response)
    (filepath : Option String) (backoff limit : ℚ) :
    ∀ (fuel : Nat) (delay : ℚ) (retries attempt : Nat) (v : GWDValue),
      (∀ j, j < attempt → responses j = none) →
      (gwdLoop responses filepath backoff limit delay retries attempt
        fuel).1 = .ok v →
      ∃ k r, responses k = some r ∧ (∀ j, j < k → responses j = none) ∧
        v = handle_url_content r filepath := by
  intro fuel
  induction fuel with
  | zero => intro delay retries attempt v hinv h; simp [gwdLoop] at h
  | succ fuel ih =>
    intro delay retries attempt v hinv h
    by_cases hle : delay ≤ limit
    · cases hr : responses attempt with
      | some r =>
        rw [gwdLoop_succ_ok responses filepath backoff limit delay retries
          attempt fuel r hle hr] at h
        simp only [GWDOutcome.ok.injEq] at h
        exact ⟨attempt, r, hr, hinv, h.symm⟩
      | none =>
        rw [gwdLoop_succ_fail responses filepath backoff limit delay retries
          attempt fuel hle hr] at h
        refine ih _ _ _ v ?_ h
        intro j hj
        rcases Nat.lt_succ_iff_lt_or_eq.mp hj with hj2 | rfl
        · exact hinv j hj2
        · exact hr
    · rw [gwdLoop_succ_stop responses filepath backoff limit delay retries
        attempt fuel hle] at h
      exact absurd h (fun hh => GWDOutcome.noConfusion hh)

theorem gwdLoop_workerError_limit (responses : Nat → Option Response)
    (filepath : Option String) (backoff limit : ℚ) :
    ∀ (fuel : Nat) (delay : ℚ) (retries attempt : Nat) (n : Nat),
      (gwdLoop responses filepath backoff limit delay retries attempt
        fuel).1 = .workerError n →
      limit < delay * backoff ^
        (gwdLoop responses filepath backoff limit delay retries attempt
          fuel).2.length := by
  intro fuel
  induction fuel with
  | zero => intro delay retries attempt n h; simp [gwdLoop] at h
  | succ fuel ih =>
    intro delay retries attempt n h
    by_cases hle : delay ≤ limit
    · cases hr : responses attempt with
      | some r =>
        rw [gwdLoop_succ_ok responses filepath backoff limit delay retries
          attempt fuel r hle hr] at h
        exact absurd h (fun hh => GWDOutcome.noConfusion hh)
      | none =>
        rw [gwdLoop_succ_fail responses filepath backoff limit delay retries
          attempt fuel hle hr] at h ⊢
        have hlim := ih (delay * backoff) (retries + 1) (attempt + 1) n h
        calc limit < delay * backoff * backoff ^
              (gwdLoop responses filepath backoff limit (delay * backoff)
                (retries + 1) (attempt + 1) fuel).2.length := hlim
          _ = delay * backoff ^
              (delay :: (gwdLoop responses filepath backoff limit
                (delay * backoff) (retries + 1) (attempt + 1)
                fuel).2).length := by
            rw [List.length_cons]
            ring
    · rw [gwdLoop_succ_stop responses filepath backoff limit delay retries
        attempt fuel hle] at h ⊢
      simpa using not_le.mp hle

/-- The run of `get_web_data` with the default argument values against
an always-failing server: eleven retries are slept at 2, 4, ..., 2048
seconds, then the next delay 4096 would exceed the 3600-second limit and
`WorkerError` is raised. -/
theorem gwd_default_trace :
    get_web_data (fun _ => none) none 2 2 3600 12 =
      (.workerError 11,
        [2, 4, 8, 16, 32, 64, 128, 256, 512, 1024, 2048]) := by
  rw [get_web_data.eq_def]
  simp only []
  rw [gwdLoop_succ_fail (fun _ => none) none 2 3600 2 0 1 11
    (by norm_num) rfl]
  norm_num
  rw [gwdLoop_succ_fail (fun _ => none) none 2 3600 4 1 2 10
    (by norm_num) rfl]
  norm_num
  rw [gwdLoop_succ_fail (fun _ => none) none 2 3600 8 2 3 9
    (by norm_num) rfl]
  norm_num
  rw [gwdLoop_succ_fail (fun _ => none) none 2 3600 16 3 4 8
    (by norm_num) rfl]
  norm_num
  rw [gwdLoop_succ_fail (fun _ => none) none 2 3600 32 4 5 7
    (by norm_num) rfl]
  norm_num
  rw [gwdLoop_succ_fail (fun _ => none) none 2 3600 64 5 6 6
    (by norm_num) rfl]
  norm_num
  rw [gwdLoop_succ_fail (fun _ => none) none 2 3600 128 6 7 5
    (by norm_num) rfl]
  norm_num
  rw [gwdLoop_succ_fail (fun _ => none) none 2 3600 256 7 8 4
    (by norm_num) rfl]
  norm_num
  rw [gwdLoop_succ_fail (fun _ => none) none 2 3600 512 8 9 3
    (by norm_num) rfl]
  norm_num
  rw [gwdLoop_succ_fail (fun _ => none) none 2 3600 1024 9 10 2
    (by norm_num) rfl]
  norm_num
  rw [gwdLoop_succ_fail (fun _ => none) none 2 3600 2048 10 11 1
    (by norm_num) rfl]
  norm_num
  rw [gwdLoop_succ_stop (fun _ => none) none 2 3600 4096 11 12 0
    (by norm_num)]
  exact ⟨rfl, rfl⟩

/-! ### The claims -/

/-- C1: the claim says that after the manager receives a `the end`
message, `finish_automation` empties the module-level checklist.  The
code does not: `checklist = {}` inside `finish_automation` binds a
function-local name, so every entry added by `update_checklist` survives.
This theorem evaluates the code at a failing input: a checklist holding
the `rivers` entry, a `the end` message handled by a full loop iteration,
after which the module-level checklist still holds the entry (while the
spec-intended `finish_automation_spec` empties it). -/
theorem C1_checklist_not_cleared :
    finish_automation [("rivers", Value.str "runoff file checklist")] =
      [("rivers", Value.str "runoff file checklist")] ∧
    [("rivers", Value.str "runoff file checklist")] ≠ ([] : Checklist) ∧
    loop_iteration
      ⟨[("make_runoff_file", ["the end"])], "python", "nowcast.yaml"⟩
      [("rivers", Value.str "runoff file checklist")]
      ⟨"make_runoff_file", "the end", Value.null⟩ =
      .ok ([("rivers", Value.str "runoff file checklist")],
        [.recv ⟨"make_runoff_file", "the end", Value.null⟩,
          .send (serialize_message mgr_name "ack"), .logRotated]) ∧
    finish_automation_spec [("rivers", Value.str "runoff file checklist")] =
      [] :=
  ⟨rfl, by simp, rfl, rfl⟩

/-- C2 counterexample: a message whose `(worker, msg_type)` pair is
defined in the configuration's `msg_types` table but matches no dispatch
branch (`download_weather` with the defined type `success 00`) leaves the
local `reply` unbound, so `parse_message` raises `UnboundLocalError`
instead of returning a triple. -/
theorem C2_counterexample :
    "success 00" ∈ (["success 00"] : List String) ∧
    parse_message
      ⟨[("download_weather", ["success 00"])], "python", "nowcast.yaml"⟩
      ⟨"download_weather", "success 00", Value.null⟩ =
      .error .unboundLocal :=
  ⟨by decide, rfl⟩

/-- C2 amended: for a message whose worker has a `msg_types` entry and
whose `msg_type` is defined there, `parse_message` returns a reply triple
exactly when the `(worker, msg_type)` pair matches one of the static
dispatch cases (`handledDispatch`); for defined pairs outside those cases
the local `reply` is never assigned and `parse_message` raises
`UnboundLocalError`. -/
theorem C2_defined_static_lookup (config : Config) (msg : Message)
    (types : List String)
    (hlk : config.msg_types.lookup msg.source = some types)
    (hdef : msg.msg_type ∈ types) :
    (handledDispatch msg.source msg.msg_type →
      ∃ out, parse_message config msg = .ok out) ∧
    (¬ handledDispatch msg.source msg.msg_type →
      parse_message config msg = .error .unboundLocal) := by
  obtain ⟨worker, t, p⟩ := msg
  simp only at hlk hdef
  constructor
  · intro hh
    rcases hh with ⟨hsucc, hw⟩ | ⟨hfail, hw⟩ | hte
    · rcases hw with ⟨hw, h06 | h18⟩ | hw | hw | hw
      · subst hw
        exact ⟨_, pm_success_dw06 config types t p hlk hsucc h06⟩
      · subst hw
        exact ⟨_, pm_success_dw18 config types t p hlk hsucc h18⟩
      · subst hw
        exact ⟨_, pm_success_checklist config types _ "sshNeahBay" t p
          (Or.inl ⟨rfl, rfl⟩) hlk hsucc⟩
      · subst hw
        exact ⟨_, pm_success_checklist config types _ "rivers" t p
          (Or.inr (Or.inl ⟨rfl, rfl⟩)) hlk hsucc⟩
      · subst hw
        exact ⟨_, pm_success_checklist config types _ "weather forcing" t p
          (Or.inr (Or.inr ⟨rfl, rfl⟩)) hlk hsucc⟩
    · exact ⟨_, pm_failure config types worker t p hw hlk hfail⟩
    · subst hte
      exact ⟨_, pm_the_end config types worker p hlk⟩
  · intro hnh
    exact pm_defined_unhandled config types worker t p hlk hdef hnh

/-- C2 witness: the amended theorem applied at the counterexample's
concrete configuration and message. -/
theorem C2_defined_static_lookup_witness :
    parse_message
      ⟨[("download_weather", ["success 00"])], "python", "nowcast.yaml"⟩
      ⟨"download_weather", "success 00", Value.null⟩ =
      .error .unboundLocal :=
  (C2_defined_static_lookup
    ⟨[("download_weather", ["success 00"])], "python", "nowcast.yaml"⟩
    ⟨"download_weather", "success 00", Value.null⟩
    ["success 00"] (by decide) (by decide)).2 (by decide)

/-- C3: success dispatch.  `download_weather` success types ending `18`
get the ack reply and launch the `grib_to_netcdf` worker as a subprocess;
types ending `06` get the ack reply with no follow-up; success messages
from `get_NeahBay_ssh`, `make_runoff_file` and `grib_to_netcdf` get the
ack reply and update the checklist under `sshNeahBay`, `rivers` and
`weather forcing` respectively, storing the message payload there. -/
theorem C3_success_dispatch (config : Config) (types : List String)
    (t : String) (p : Value) (cl : Checklist)
    (hsucc : strStartsWith t "success" = true) :
    (config.msg_types.lookup "download_weather" = some types →
      strEndsWith t "18" = true →
      parse_message config ⟨"download_weather", t, p⟩ =
        .ok (serialize_message mgr_name "ack",
          .launch_worker "grib_to_netcdf",
          baseLogs types "download_weather" t) ∧
      perform_step config cl (.launch_worker "grib_to_netcdf") =
        (cl, [.launchSubprocess (launch_worker "grib_to_netcdf" config)])) ∧
    (config.msg_types.lookup "download_weather" = some types →
      strEndsWith t "06" = true →
      parse_message config ⟨"download_weather", t, p⟩ =
        .ok (serialize_message mgr_name "ack", .do_nothing,
          baseLogs types "download_weather" t) ∧
      perform_step config cl .do_nothing = (cl, [])) ∧
    (∀ worker key,
      ((worker = "get_NeahBay_ssh" ∧ key = "sshNeahBay") ∨
        (worker = "make_runoff_file" ∧ key = "rivers") ∨
        (worker = "grib_to_netcdf" ∧ key = "weather forcing")) →
      config.msg_types.lookup worker = some types →
      parse_message config ⟨worker, t, p⟩ =
        .ok (serialize_message mgr_name "ack",
          .update_checklist worker key p, baseLogs types worker t) ∧
      (perform_step config cl (.update_checklist worker key p)).1.lookup
        key = some p) := by
  refine ⟨?_, ?_, ?_⟩
  · intro hlk h18
    exact ⟨pm_success_dw18 config types t p hlk hsucc h18, rfl⟩
  · intro hlk h06
    exact ⟨pm_success_dw06 config types t p hlk hsucc h06, rfl⟩
  · intro worker key hw hlk
    exact ⟨pm_success_checklist config types worker key t p hw hlk hsucc,
      dictUpdate_lookup_self cl key p⟩

/-- C3 witness: the dispatch theorem applied to a concrete configuration
and the concrete success messages. -/
theorem C3_success_dispatch_witness :
    parse_message
      ⟨[("download_weather", ["success 18"])], "python", "nowcast.yaml"⟩
      ⟨"download_weather", "success 18", Value.null⟩ =
      .ok (serialize_message mgr_name "ack",
        .launch_worker "grib_to_netcdf",
        baseLogs ["success 18"] "download_weather" "success 18") :=
  ((C3_success_dispatch
    ⟨[("download_weather", ["success 18"])], "python", "nowcast.yaml"⟩
    ["success 18"] "success 18" Value.null [] (by decide)).1
    (by decide) (by decide)).1

/-- C4: one iteration of the manager loop, on any message whose parse
succeeds, receives exactly one message, sends the reply before the
follow-up events, and performs at most one follow-up action. -/
theorem C4_loop_iteration (config : Config) (cl : Checklist)
    (msg : Message) (reply : String) (next : NextStep)
    (logs : List LogEvent)
    (h : parse_message config msg = .ok (reply, next, logs)) :
    ∃ cl2 rest,
      loop_iteration config cl msg = .ok (cl2, .recv msg :: .send reply ::
        rest) ∧
      rest.length ≤ 1 ∧
      (∀ e ∈ rest, e.isFollowUp = true) ∧
      ((.recv msg :: .send reply :: rest).filter Event.isRecv).length = 1 ∧
      ((.recv msg :: .send reply :: rest).filter Event.isSend).length
        = 1 := by
  refine ⟨(perform_step config cl next).1, (perform_step config cl next).2,
    ?_, ?_, ?_, ?_, ?_⟩
  · rw [loop_iteration, h]
  all_goals
    cases next <;>
      simp [perform_step, Event.isFollowUp, Event.isRecv, Event.isSend]

/-- C4 witness: the loop-iteration theorem applied to a concrete
configuration, checklist and message. -/
theorem C4_loop_iteration_witness :
    ∃ cl2 rest,
      loop_iteration
        ⟨[("make_runoff_file", ["success"])], "python", "nowcast.yaml"⟩
        [] ⟨"make_runoff_file", "success", Value.str "rivers ok"⟩ =
        .ok (cl2,
          .recv ⟨"make_runoff_file", "success", Value.str "rivers ok"⟩ ::
          .send (serialize_message mgr_name "ack") :: rest) ∧
      rest.length ≤ 1 ∧
      (∀ e ∈ rest, e.isFollowUp = true) ∧
      ((.recv ⟨"make_runoff_file", "success", Value.str "rivers ok"⟩ ::
        .send (serialize_message mgr_name "ack") :: rest).filter
          Event.isRecv).length = 1 ∧
      ((.recv ⟨"make_runoff_file", "success", Value.str "rivers ok"⟩ ::
        .send (serialize_message mgr_name "ack") :: rest).filter
          Event.isSend).length = 1 :=
  C4_loop_iteration
    ⟨[("make_runoff_file", ["success"])], "python", "nowcast.yaml"⟩
    [] ⟨"make_runoff_file", "success", Value.str "rivers ok"⟩
    (serialize_message mgr_name "ack")
    (.update_checklist "make_runoff_file" "rivers" (Value.str "rivers ok"))
    (baseLogs ["success"] "make_runoff_file" "success")
    (pm_success_checklist _ _ _ _ _ _ (Or.inr (Or.inl ⟨rfl, rfl⟩))
      (by decide) (by decide))

/-- C5: every `failure`-prefixed message from `download_weather` (types
ending `06` or `18`), `get_NeahBay_ssh`, `make_runoff_file` or
`grib_to_netcdf` is logged (an info record when defined, an error record
when not) and acknowledged with the fixed serialized `ack` message, with
`do_nothing` as the follow-up (no launch, no checklist update). -/
theorem C5_failure_ack (config : Config) (types : List String)
    (worker t : String) (p : Value)
    (hw : (worker = "download_weather" ∧
        (strEndsWith t "06" = true ∨ strEndsWith t "18" = true)) ∨
      worker = "get_NeahBay_ssh" ∨ worker = "make_runoff_file" ∨
      worker = "grib_to_netcdf")
    (hlk : config.msg_types.lookup worker = some types)
    (hfail : strStartsWith t "failure" = true) :
    parse_message config ⟨worker, t, p⟩ =
      .ok (serialize_message mgr_name "ack", .do_nothing,
        baseLogs types worker t) ∧
    (baseLogs types worker t = [.infoReceived worker t] ∨
      baseLogs types worker t = [.errorUndefinedMsg worker t]) ∧
    (∀ cl, perform_step config cl .do_nothing = (cl, [])) := by
  refine ⟨pm_failure config types worker t p hw hlk hfail, ?_, fun cl => rfl⟩
  unfold baseLogs
  by_cases hdef : t ∈ types
  · exact Or.inl (by rw [if_pos hdef])
  · exact Or.inr (by rw [if_neg hdef])

/-- C5 witness: the failure-handling theorem applied to a concrete
configuration and failure message. -/
theorem C5_failure_ack_witness :
    parse_message
      ⟨[("get_NeahBay_ssh", ["failure"])], "python", "nowcast.yaml"⟩
      ⟨"get_NeahBay_ssh", "failure", Value.null⟩ =
      .ok (serialize_message mgr_name "ack", .do_nothing,
        baseLogs ["failure"] "get_NeahBay_ssh" "failure") :=
  (C5_failure_ack
    ⟨[("get_NeahBay_ssh", ["failure"])], "python", "nowcast.yaml"⟩
    ["failure"] "get_NeahBay_ssh" "failure" Value.null
    (Or.inr (Or.inl rfl)) (by decide) (by decide)).1

/-- C6 counterexample: an undefined `msg_type` that still matches a
dispatch pattern is not answered with the `undefined msg` reply: for
`get_NeahBay_ssh` with the undefined type `success extra`, the dispatch
branch overrides the reply with the ack message and schedules a
checklist update, contradicting the claim's `regardless of the undefined
msg_type's content`. -/
theorem C6_counterexample :
    "success extra" ∉ (["success"] : List String) ∧
    parse_message
      ⟨[("get_NeahBay_ssh", ["success"])], "python", "nowcast.yaml"⟩
      ⟨"get_NeahBay_ssh", "success extra", Value.str "sshNB"⟩ =
      .ok (serialize_message mgr_name "ack",
        .update_checklist "get_NeahBay_ssh" "sshNeahBay" (Value.str "sshNB"),
        [.errorUndefinedMsg "get_NeahBay_ssh" "success extra"]) ∧
    serialize_message mgr_name "ack" ≠
      serialize_message mgr_name "undefined msg" ∧
    NextStep.update_checklist "get_NeahBay_ssh" "sshNeahBay"
      (Value.str "sshNB") ≠ .do_nothing :=
  ⟨by decide, rfl, by decide, by decide⟩

/-- C6 amended: a message whose `msg_type` is undefined for its worker
gets the `undefined msg` error logged and the canned serialized
`undefined msg` reply with `do_nothing` as follow-up, provided the
undefined type also matches no dispatch pattern; an undefined type that
does match a dispatch pattern is handled by that branch instead. -/
theorem C6_undefined_reply (config : Config) (types : List String)
    (worker t : String) (p : Value)
    (hlk : config.msg_types.lookup worker = some types)
    (hdef : t ∉ types) (hnh : ¬ handledDispatch worker t) :
    parse_message config ⟨worker, t, p⟩ =
      .ok (serialize_message mgr_name "undefined msg", .do_nothing,
        [.errorUndefinedMsg worker t]) ∧
    (∀ cl, perform_step config cl .do_nothing = (cl, [])) :=
  ⟨pm_undefined_unhandled config types worker t p hlk hdef hnh,
    fun _ => rfl⟩

/-- C6 witness: the amended theorem applied to a concrete configuration
and a concrete undefined, unhandled message. -/
theorem C6_undefined_reply_witness :
    parse_message
      ⟨[("get_NeahBay_ssh", ["success"])], "python", "nowcast.yaml"⟩
      ⟨"get_NeahBay_ssh", "checksum", Value.null⟩ =
      .ok (serialize_message mgr_name "undefined msg", .do_nothing,
        [.errorUndefinedMsg "get_NeahBay_ssh" "checksum"]) :=
  (C6_undefined_reply
    ⟨[("get_NeahBay_ssh", ["success"])], "python", "nowcast.yaml"⟩
    ["success"] "get_NeahBay_ssh" "checksum" Value.null
    (by decide) (by decide) (by decide)).1

/-- C7: while HTTP requests keep failing, the wait intervals slept by
`get_web_data` follow the documented schedule: the k-th slept interval is
`first_retry_delay * retry_backoff_factor ^ k` (so the first retry comes
`first_retry_delay` seconds after the initial failure and each interval
is the previous one times the backoff factor), every slept interval is at
most `retry_time_limit`, and with the default argument values the final
slept interval is 2048 seconds. -/
theorem C7_retry_schedule (responses : Nat → Option Response)
    (filepath : Option String) (first backoff limit : ℚ) (fuel : Nat)
    (hfail : ∀ k, responses k = none) :
    (∀ i, i < (get_web_data responses filepath first backoff limit
        fuel).2.length →
      (get_web_data responses filepath first backoff limit fuel).2.get? i =
        some (first * backoff ^ i)) ∧
    (∀ i x y,
      (get_web_data responses filepath first backoff limit fuel).2.get? i =
        some x →
      (get_web_data responses filepath first backoff limit
        fuel).2.get? (i + 1) = some y →
      y = x * backoff) ∧
    (∀ d ∈ (get_web_data responses filepath first backoff limit fuel).2,
      d ≤ limit) ∧
    (get_web_data (fun _ => none) none 2 2 3600 12).2.getLast? =
      some 2048 := by
  have hrun : get_web_data responses filepath first backoff limit fuel =
      gwdLoop responses filepath backoff limit first 0 1 fuel := by
    rw [get_web_data, hfail 0]
  refine ⟨?_, ?_, ?_, ?_⟩
  · intro i hi
    rw [hrun] at hi ⊢
    exact gwdLoop_trace_geom responses filepath backoff limit hfail
      fuel first 0 1 i hi
  · intro i x y hx hy
    have hlx : i < (get_web_data responses filepath first backoff limit
        fuel).2.length := List.get?_eq_some.mp hx |>.1
    have hly : i + 1 < (get_web_data responses filepath first backoff limit
        fuel).2.length := List.get?_eq_some.mp hy |>.1
    rw [hrun] at hx hy
    have gx := gwdLoop_trace_geom responses filepath backoff limit hfail
      fuel first 0 1 i (by rw [hrun] at hlx; exact hlx)
    have gy := gwdLoop_trace_geom responses filepath backoff limit hfail
      fuel first 0 1 (i + 1) (by rw [hrun] at hly; exact hly)
    rw [gx] at hx
    rw [gy] at hy
    have hx2 : x = first * backoff ^ i := (Option.some.injEq _ _ ▸ hx).symm
    have hy2 : y = first * backoff ^ (i + 1) :=
      (Option.some.injEq _ _ ▸ hy).symm
    rw [hx2, hy2]
    ring
  · intro d hd
    rw [hrun] at hd
    exact gwdLoop_trace_le responses filepath backoff limit fuel first
      0 1 d hd
  · rw [gwd_default_trace]
    rfl

/-- C7 witness: the schedule theorem applied to the always-failing
network with the default argument values. -/
theorem C7_retry_schedule_witness :
    (get_web_data (fun _ => none) none 2 2 3600 12).2.getLast? =
      some 2048 ∧
    ∀ d ∈ (get_web_data (fun _ => none) none 2 2 3600 12).2,
      d ≤ 3600 := by
  have h := C7_retry_schedule (fun _ => none) none 2 2 3600 12
    (fun _ => rfl)
  exact ⟨h.2.2.2, h.2.2.1⟩

/-- C8: with a positive first delay and a backoff factor greater than 1,
`get_web_data` terminates: there is a fuel bound at which the embedded
loop does not diverge, and the run either returns the handled content of
the first successful response (the content text when `filepath` is
`None`, the headers dict when a file path is given) or raises
`WorkerError` once the next retry delay would exceed
`retry_time_limit`. -/
theorem C8_termination (responses : Nat → Option Response)
    (filepath : Option String) (first backoff limit : ℚ)
    (hfirst : 0 < first) (hb : 1 < backoff) :
    ∃ fuel,
      (get_web_data responses filepath first backoff limit fuel).1 ≠
        .diverge ∧
      (∀ v, (get_web_data responses filepath first backoff limit fuel).1 =
          .ok v →
        ∃ k r, responses k = some r ∧ (∀ j, j < k → responses j = none) ∧
          v = handle_url_content r filepath ∧
          (filepath = none → v = .text r.text) ∧
          (∀ fp, filepath = some fp → v = .headers r.headers)) ∧
      (∀ n, (get_web_data responses filepath first backoff limit fuel).1 =
          .workerError n →
        limit < first * backoff ^
          (get_web_data responses filepath first backoff limit
            fuel).2.length) := by
  obtain ⟨m, hm⟩ := pow_unbounded_of_one_lt (limit / first) hb
  have hlim : limit < first * backoff ^ m := by
    rw [div_lt_iff₀ hfirst] at hm
    calc limit < backoff ^ m * first := hm
      _ = first * backoff ^ m := by ring
  refine ⟨m + 1, ?_⟩
  have hhuc : ∀ r : Response,
      (filepath = none → handle_url_content r filepath = .text r.text) ∧
      (∀ fp, filepath = some fp →
        handle_url_content r filepath = .headers r.headers) := by
    intro r
    constructor
    · intro hfp; rw [hfp]; rfl
    · intro fp hfp; rw [hfp]; rfl
  cases hr0 : responses 0 with
  | some r =>
    have hrun : get_web_data responses filepath first backoff limit
        (m + 1) = (.ok (handle_url_content r filepath), []) := by
      rw [get_web_data, hr0]
    rw [hrun]
    refine ⟨fun h => GWDOutcome.noConfusion h, ?_, ?_⟩
    · intro v hv
      simp only [GWDOutcome.ok.injEq] at hv
      exact ⟨0, r, hr0, fun j hj => absurd hj (Nat.not_lt_zero j),
        hv.symm, by rw [← hv]; exact (hhuc r).1,
        by intro fp hfp; rw [← hv]; exact (hhuc r).2 fp hfp⟩
    · intro n hn
      exact absurd hn (fun hh => GWDOutcome.noConfusion hh)
  | none =>
    have hrun : get_web_data responses filepath first backoff limit
        (m + 1) =
        gwdLoop responses filepath backoff limit first 0 1 (m + 1) := by
      rw [get_web_data, hr0]
    rw [hrun]
    refine ⟨gwdLoop_ne_diverge responses filepath backoff limit hb m
      first 0 1 hfirst hlim, ?_, ?_⟩
    · intro v hv
      obtain ⟨k, r, hk, hfirstk, hvr⟩ :=
        gwdLoop_ok_first_success responses filepath backoff limit
          (m + 1) first 0 1 v
          (fun j hj => by
            interval_cases j
            · exact hr0)
          hv
      exact ⟨k, r, hk, hfirstk, hvr,
        by intro hfp; rw [hvr, hfp]; rfl,
        by intro fp hfp; rw [hvr, hfp]; rfl⟩
    · intro n hn
      exact gwdLoop_workerError_limit responses filepath backoff limit
        (m + 1) first 0 1 n hn

/-- C8 witness: the termination theorem applied to the always-failing
network with the default argument values. -/
theorem C8_termination_witness :
    ∃ fuel,
      (get_web_data (fun _ => none) none 2 2 3600 fuel).1 ≠ .diverge := by
  obtain ⟨fuel, h1, h2, h3⟩ :=
    C8_termination (fun _ => none) none 2 2 3600 (by norm_num)
      (by norm_num)
  exact ⟨fuel, h1⟩

/-- C9: round trip of the message wire format.  For every source string,
message-type string and YAML-safe payload (newline-free in the embedded
scalar fragment), deserializing the serialized message yields the
three-key message dict with exactly the given source, type and payload;
and when the payload argument is omitted the deserialized payload is
`None`. -/
theorem C9_roundtrip (source msg_type : String) (payload : Value)
    (hs : '\n' ∉ source.data) (ht : '\n' ∉ msg_type.data)
    (hp : payload.noNL) :
    deserialize_message (serialize_message source msg_type payload) =
      some [("msg_type", .str msg_type), ("payload", payload),
        ("source", .str source)] ∧
    deserialize_message (serialize_message source msg_type) =
      some [("msg_type", .str msg_type), ("payload", Value.null),
        ("source", .str source)] :=
  ⟨deserialize_serialize source msg_type payload hs ht hp,
    deserialize_serialize source msg_type Value.null hs ht trivial⟩

/-- C9 witness: the round-trip theorem applied to a concrete worker
message. -/
theorem C9_roundtrip_witness :
    deserialize_message
      (serialize_message "download_weather" "success 06"
        (Value.str "forecast 06 ready")) =
      some [("msg_type", Value.str "success 06"),
        ("payload", Value.str "forecast 06 ready"),
        ("source", Value.str "download_weather")] :=
  (C9_roundtrip "download_weather" "success 06"
    (Value.str "forecast 06 ready") (by decide) (by decide) (by decide)).1

/-- C10: `update_checklist` is a frame-preserving point update of the
module-level checklist dict: the given key now maps to the worker's
checklist value, and every other key maps to exactly what it mapped to
before the call. -/
theorem C10_update_frame (cl : Checklist) (worker key : String)
    (v : Value) :
    (update_checklist worker key v cl).lookup key = some v ∧
    (∀ k2, k2 ≠ key →
      (update_checklist worker key v cl).lookup k2 = cl.lookup k2) :=
  ⟨dictUpdate_lookup_self cl key v,
    fun k2 h => dictUpdate_lookup_other cl key v k2 h⟩

/-- C10 witness: the frame theorem applied to a concrete checklist. -/
theorem C10_update_frame_witness :
    (update_checklist "make_runoff_file" "rivers" (Value.str "done")
      [("sshNeahBay", Value.int 4)]).lookup "rivers" =
        some (Value.str "done") ∧
    (update_checklist "make_runoff_file" "rivers" (Value.str "done")
      [("sshNeahBay", Value.int 4)]).lookup "sshNeahBay" =
        some (Value.int 4) :=
  ⟨(C10_update_frame [("sshNeahBay", Value.int 4)] "make_runoff_file"
      "rivers" (Value.str "done")).1,
    Eq.trans
      ((C10_update_frame [("sshNeahBay", Value.int 4)] "make_runoff_file"
        "rivers" (Value.str "done")).2 "sshNeahBay" (by decide)) rfl⟩

end Nowcast
